import Mathlib

/-! Orbit: service provisioning API and synchronisation daemon.

A shallow embedding of `api/services.go` (the handlers `serveService`,
`serveCreateService` and the launcher `runContainer`) and of
`cmd/orbit/orbit.go` (`daemonCmd`, `commitAndPushEverything`,
`createProjectCmd`).

The code talks to collaborators that are not part of the two files: the
docker and git binaries (through `os/exec`), the record store
(`store.Services`), the remote API client (`apiClient.Projects`), the HTTP
response writer and the filesystem watcher.  Each collaborator is a parameter
of the embedding: its answers are arbitrary, and every call made to it is
recorded, in order and with its arguments, in a trace.  The theorems are
statements about those traces and about the values the functions return.
-/

namespace Orbit

/-! ## Errors and records -/

/-- The two `strconv` failure causes: `strconv.ErrSyntax` and `strconv.ErrRange`. -/
inductive NumErr where
  | invalid
  | outOfRange
deriving DecidableEq, Repr

/-- Go `error` values, by kind.  `numError` is `*strconv.NumError` (function name,
offending input, cause); `notFound` is the store's report that no record has the
requested ID; `other` is any other error value a collaborator produces (a docker
or git failure, a JSON decoding failure, a rejected write, ...). -/
inductive Error where
  | numError (fn : String) (num : String) (err : NumErr)
  | notFound
  | other (msg : String)
deriving DecidableEq, Repr

/-- Modelled from the spec: `orbit.Service` is declared outside the two source files;
its fields are those of the Service JSON shape `id, type, portExposed, containerID`
(the field `Type` is spelled `Typ`, `Type` being reserved). -/
structure Service where
  ID : Int
  Typ : String
  PortExposed : String
  ContainerID : String
deriving DecidableEq, Repr

/-- Modelled from the spec: `orbit.Project` is declared outside the two source files;
an identifier assigned remotely and the remote-relative `GitPath`. -/
structure Project where
  ID : Int
  GitPath : String
deriving DecidableEq, Repr

/-! ## Standard-library functions used by the handlers -/

/-- Go `unicode.IsSpace`: the Latin-1 spaces `\t \n \v \f \r`, space, U+0085, U+00A0,
and the other code points with the White_Space property. -/
def isSpace (c : Char) : Bool :=
  let n := c.toNat
  (0x09 ≤ n && n ≤ 0x0D) || n == 0x20 || n == 0x85 || n == 0xA0 || n == 0x1680 ||
    (0x2000 ≤ n && n ≤ 0x200A) || n == 0x2028 || n == 0x2029 || n == 0x202F ||
    n == 0x205F || n == 0x3000

/-- Go `strings.TrimSpace`: the string without its leading and trailing white space. -/
def TrimSpace (s : String) : String :=
  String.mk (((s.toList.dropWhile isSpace).reverse.dropWhile isSpace).reverse)

/-- The digit loop of `strconv.ParseUint(s, 10, 64)`: a byte that is not a decimal
digit is a syntax error, a value above `2^64 - 1` is a range error; whichever is
met first, reading left to right, is reported. -/
def parseUint : List Char → Nat → Except NumErr Nat
  | [], acc => .ok acc
  | c :: rest, acc =>
    if 48 ≤ c.toNat ∧ c.toNat ≤ 57 then
      let n := acc * 10 + (c.toNat - 48)
      if n ≥ 2 ^ 64 then .error .outOfRange else parseUint rest n
    else .error .invalid

/-- Go `strconv.ParseInt(s, 10, 0)` on a 64-bit platform, without the error wrapper:
an optional sign, at least one decimal digit, and a value in `[-2^63, 2^63 - 1]`. -/
def parseInt (s : String) : Except NumErr Int :=
  match s.toList with
  | [] => .error .invalid
  | c :: rest =>
    let neg := c == '-'
    let digits := if c == '+' ∨ c == '-' then rest else c :: rest
    match digits with
    | [] => .error .invalid
    | d :: ds =>
      match parseUint (d :: ds) 0 with
      | .error e => .error e
      | .ok un =>
        if ¬ neg ∧ un ≥ 2 ^ 63 then .error .outOfRange
        else if neg ∧ un > 2 ^ 63 then .error .outOfRange
        else .ok (if neg then -(un : Int) else (un : Int))

/-- Go `strconv.Atoi`: `ParseInt(s, 10, 0)` with failures reported as a
`*strconv.NumError` naming `Atoi` and the input. -/
def Atoi (s : String) : Except Error Int :=
  match parseInt s with
  | .ok n => .ok n
  | .error e => .error (.numError "Atoi" s e)

/-! ## The API handlers (`api/services.go`) -/

/-- A call made by a handler to one of its collaborators. -/
inductive Call where
  /-- The call `exec.Command(argv[0], argv[1:]...).Output()`. -/
  | execOutput (argv : List String)
  /-- The call `store.Services.Get(id)`. -/
  | servicesGet (id : Int)
  /-- The call `store.Services.Create(&service)`, with the record as it is handed over. -/
  | servicesCreate (service : Service)
  /-- The call `w.WriteHeader(status)`. -/
  | writeHeader (status : Nat)
  /-- The call `writeJSON(w, service)`. -/
  | writeJSON (service : Service)
deriving DecidableEq, Repr

/-- The collaborators of the handlers.  `execOutput` is the outcome of running a
command and collecting its standard output; `servicesGet` and `servicesCreate` are
the store (`servicesCreate` receives a pointer: on success it answers with the
record as the store left it, e.g. with the assigned `ID`); `writeJSON` is the
package helper that encodes a value into the response. -/
structure Env where
  execOutput : List String → Except Error String
  servicesGet : Int → Except Error Service
  servicesCreate : Service → Except Error Service
  writeJSON : Service → Option Error

/-- An HTTP request as the handlers read it: the route variable `mux.Vars(r)["ID"]`,
and the outcome of `json.NewDecoder(r.Body).Decode(&service)`. -/
structure Request where
  VarID : String
  Body : Except Error Service

/-- What a handler did: its calls to collaborators, in order, and the error it
returned (`none` is Go `nil`). -/
structure Outcome where
  calls : List Call
  err : Option Error
deriving DecidableEq, Repr

/-- The command line `runContainer` builds for `image` and `port`. -/
def dockerRunArgv (image port : String) : List String :=
  ["docker", "run", "-d", "-p", port, image, "/bin/sh", "-c", "while true; do sleep 1; done"]

/-- The launcher `runContainer`: runs the docker command; on failure returns `("", err)`, on
success the trimmed standard output and `nil`.  The first component is the call made. -/
def runContainer (env : Env) (image port : String) : List Call × String × Option Error :=
  let argv := dockerRunArgv image port
  match env.execOutput argv with
  | .error err => ([.execOutput argv], "", some err)
  | .ok output => ([.execOutput argv], TrimSpace output, none)

/-- The handler `serveService`: parse the ID, fetch the record, write it. -/
def serveService (env : Env) (r : Request) : Outcome :=
  match Atoi r.VarID with
  | .error err => ⟨[], some err⟩
  | .ok id =>
    match env.servicesGet id with
    | .error err => ⟨[.servicesGet id], some err⟩
    | .ok service => ⟨[.servicesGet id, .writeJSON service], env.writeJSON service⟩

/-- The handler `serveCreateService`: decode the body, launch the container, store the record,
answer 201 with the record. -/
def serveCreateService (env : Env) (r : Request) : Outcome :=
  match r.Body with
  | .error err => ⟨[], some err⟩
  | .ok decoded =>
    let launched := runContainer env decoded.Typ decoded.PortExposed
    let service := { decoded with ContainerID := launched.2.1 }
    match launched.2.2 with
    | some err => ⟨launched.1, some err⟩
    | none =>
      match env.servicesCreate service with
      | .error err => ⟨launched.1 ++ [.servicesCreate service], some err⟩
      | .ok stored =>
        ⟨launched.1 ++ [.servicesCreate service, .writeHeader 201, .writeJSON stored],
          env.writeJSON stored⟩

/-! ## The daemon (`cmd/orbit/orbit.go`) -/

/-- The `fsnotify.Op` bit `Create` (`1 << 0`). -/
def Create : Nat := 1
/-- The `fsnotify.Op` bit `Write` (`1 << 1`). -/
def Write : Nat := 2
/-- The `fsnotify.Op` bit `Remove` (`1 << 2`). -/
def Remove : Nat := 4
/-- The `fsnotify.Op` bit `Rename` (`1 << 3`). -/
def Rename : Nat := 8
/-- The `fsnotify.Op` bit `Chmod` (`1 << 4`). -/
def Chmod : Nat := 16

/-- An `fsnotify.Event`: the path and the operation mask (a `uint32` bit set). -/
structure Event where
  Name : String
  Op : Nat
deriving DecidableEq, Repr

/-- What the `select` of the daemon loop receives: a value from `watcher.Events` or
a value from `watcher.Errors`. -/
inductive Signal where
  | event (e : Event)
  | error (err : Error)
deriving DecidableEq, Repr

/-- The outcome of `exec.Command(argv...).Run()` in a world `σ`: the error (`none` is
`nil`) and the world afterwards.  The answer may depend on everything that
happened before. -/
abbrev Runner (σ : Type) := σ → List String → Option Error × σ

/-- The command `git add -A :/`. -/
def gitAdd : List String := ["git", "add", "-A", ":/"]
/-- The command `git commit -m "" --allow-empty-message --allow-empty`. -/
def gitCommit : List String :=
  ["git", "commit", "-m", "", "--allow-empty-message", "--allow-empty"]
/-- The command `git push`. -/
def gitPush : List String := ["git", "push"]

/-- What one sync cycle did: the commands run, in order, the error returned, and the
world afterwards. -/
structure SyncResult (σ : Type) where
  cmds : List (List String)
  err : Option Error
  world : σ

/-- The function `commitAndPushEverything`: add, commit, push, returning at the
first error. -/
def commitAndPushEverything {σ : Type} (run : Runner σ) (w : σ) : SyncResult σ :=
  match run w gitAdd with
  | (some err, w1) => ⟨[gitAdd], some err, w1⟩
  | (none, w1) =>
    match run w1 gitCommit with
    | (some err, w2) => ⟨[gitAdd, gitCommit], some err, w2⟩
    | (none, w2) =>
      match run w2 gitPush with
      | (some err, w3) => ⟨[gitAdd, gitCommit, gitPush], some err, w3⟩
      | (none, w3) => ⟨[gitAdd, gitCommit, gitPush], none, w3⟩

/-- A line written through the `log` package: `log.Println("error:", err)` or
`log.Fatal(msg)`. -/
inductive LogLine where
  | println (err : Error)
  | fatal (msg : String)
deriving DecidableEq, Repr

/-- The observable state of the daemon process: the world, the git commands run so
far, the log, and the exit status once `os.Exit` has been called. -/
structure Daemon (σ : Type) where
  world : σ
  cmds : List (List String)
  log : List LogLine
  exited : Option Nat

/-- A daemon that has just started watching. -/
def Daemon.start {σ : Type} (w : σ) : Daemon σ := ⟨w, [], [], none⟩

/-- One iteration of the `select` in the goroutine of `daemonCmd`. -/
def daemonStep {σ : Type} (run : Runner σ) (d : Daemon σ) : Signal → Daemon σ
  | .event e =>
    if e.Op &&& Write = Write then
      let r := commitAndPushEverything run d.world
      match r.err with
      | some _ =>
        { world := r.world, cmds := d.cmds ++ r.cmds,
          log := d.log ++ [.fatal "error committing changes"], exited := some 1 }
      | none => { d with world := r.world, cmds := d.cmds ++ r.cmds }
    else d
  | .error err => { d with log := d.log ++ [.println err] }

/-- The `for` loop in the goroutine of `daemonCmd`, run on the signals delivered, in
the order the `select` received them; `log.Fatal` ends the process. -/
def daemonLoop {σ : Type} (run : Runner σ) (d : Daemon σ) : List Signal → Daemon σ
  | [] => d
  | s :: rest =>
    let d1 := daemonStep run d s
    match d1.exited with
    | some _ => d1
    | none => daemonLoop run d1 rest

/-! ## Project creation (`cmd/orbit/orbit.go`) -/

/-- What the command writes to standard error: a line printed with `fmt.Fprintln`,
or the argument of `log.Fatal`. -/
inductive Diag where
  | line (s : String)
  | fatal (err : Error)
deriving DecidableEq, Repr

/-- Go `flag.FlagSet.Parse` for a flag set that defines no flag.  Answers with the
positional arguments; an argument that looks like a flag makes parsing fail, with
the line printed before the usage function is called (`-h` and `-help` print none). -/
def flagParse : List String → Except (List Diag) (List String)
  | [] => .ok []
  | s :: rest =>
    match s.toList with
    | '-' :: c :: cs =>
      if c = '-' ∧ cs = [] then .ok rest
      else
        let name := if c = '-' then cs else c :: cs
        match name with
        | [] => .error [.line ("bad flag syntax: " ++ s)]
        | n :: ns =>
          if n = '-' ∨ n = '=' then .error [.line ("bad flag syntax: " ++ s)]
          else
            let key := String.mk (n :: ns.takeWhile (fun x => x != '='))
            if key = "help" ∨ key = "h" then .error []
            else .error [.line ("flag provided but not defined: -" ++ key)]
    | _ => .ok (s :: rest)

/-- The text `fs.Usage` prints for `create-project`. -/
def createProjectUsage : String :=
  "usage: orbit create-project [project name] [options]\n\nCreate a new project on Orbit.\n"

/-- A call made by `createProjectCmd` to a collaborator. -/
inductive CliCall where
  /-- The call `apiClient.Projects.Create(&project)`. -/
  | projectsCreate (project : Project)
  /-- The call `exec.Command(argv[0], argv[1:]...).Run()`. -/
  | execRun (argv : List String)
deriving DecidableEq, Repr

/-- The collaborators of `createProjectCmd`: the remote API (on success it answers
with the record as the client left it), the clone URL derived from the configured
base URL and a `GitPath`, and the outcome of running a command. -/
structure CliEnv where
  projectsCreate : Project → Except Error Project
  cloneURL : String → String
  execRun : List String → Option Error

/-- What the command did: its calls, the lines on standard output and standard
error, and the status passed to `os.Exit` (`none`: the command returned). -/
structure CliOutcome where
  calls : List CliCall
  stdout : List String
  stderr : List Diag
  exit : Option Nat
deriving DecidableEq, Repr

/-- The command `createProjectCmd`. -/
def createProjectCmd (env : CliEnv) (args : List String) : CliOutcome :=
  match flagParse args with
  | .error diags => ⟨[], [], diags ++ [.line createProjectUsage], some 1⟩
  | .ok positional =>
    if positional.length ≠ 1 then ⟨[], [], [.line createProjectUsage], some 1⟩
    else
      let projectName := positional.headD ""
      let project : Project := ⟨0, ""⟩
      match env.projectsCreate project with
      | .error err => ⟨[.projectsCreate project], [], [.fatal err], some 1⟩
      | .ok created =>
        let argv := ["git", "clone", env.cloneURL created.GitPath, projectName]
        match env.execRun argv with
        | some err => ⟨[.projectsCreate project, .execRun argv], [], [.fatal err], some 1⟩
        | none =>
          ⟨[.projectsCreate project, .execRun argv],
            [projectName ++ " created successfully\n"], [], none⟩

/-! ## Concrete collaborators and requests -/

/-- A create request whose body decodes to type `ubuntu`, port `8080:80`. -/
def ubuntuRequest : Request := ⟨"", .ok ⟨0, "ubuntu", "8080:80", ""⟩⟩

/-- A create request whose body decodes with an empty `type`. -/
def untypedRequest : Request := ⟨"", .ok ⟨0, "", "8080:80", ""⟩⟩

/-- A create request whose body is not valid JSON. -/
def undecodableRequest : Request := ⟨"", .error (.other "unexpected EOF")⟩

/-- A get request for the route variable `id` (it has no body to decode). -/
def getRequest (id : String) : Request := ⟨id, .error (.other "EOF")⟩

/-- Docker prints the handle `abc123`, the store is empty and assigns ID 1, the
response is written without failure. -/
def stubEnv : Env where
  execOutput := fun _ => .ok "abc123\n"
  servicesGet := fun _ => .error .notFound
  servicesCreate := fun s => .ok { s with ID := 1 }
  writeJSON := fun _ => none

/-- As `stubEnv`, with a docker command that exits with a failure status. -/
def launchFailsEnv : Env := { stubEnv with execOutput := fun _ => .error (.other "exit status 125") }

/-- As `stubEnv`, with a store that rejects the write. -/
def storeFailsEnv : Env :=
  { stubEnv with servicesCreate := fun _ => .error (.other "write rejected") }

/-- As `stubEnv`, with a docker command that succeeds and prints only white space. -/
def blankOutputEnv : Env := { stubEnv with execOutput := fun _ => .ok " \n" }

/-- A world that is the script of the outcomes still to come: each command run takes
the next outcome; when the script is exhausted commands succeed. -/
def scriptedRun : Runner (List (Option Error))
  | [], _ => (none, [])
  | o :: rest, _ => (o, rest)

/-- A runner whose commands always succeed; the world counts the commands run. -/
def countingRun : Runner Nat := fun n _ => (none, n + 1)

/-- A write event on `main.go`. -/
def writeEvent : Event := ⟨"main.go", Write⟩

/-- The remote names the repository `1.git`, the clone succeeds. -/
def cliStub : CliEnv where
  projectsCreate := fun p => .ok { p with ID := 1, GitPath := "1.git" }
  cloneURL := fun g => "http://mew.hackedu.us:4000/git/" ++ g
  execRun := fun _ => none

/-- As `cliStub`, with a remote that refuses to create the project. -/
def remoteFailsCli : CliEnv :=
  { cliStub with projectsCreate := fun _ => .error (.other "500 Internal Server Error") }

/-- As `cliStub`, with a clone that exits with a failure status. -/
def cloneFailsCli : CliEnv := { cliStub with execRun := fun _ => some (.other "exit status 128") }

/-! ## Lemmas on trimming -/

theorem forall_mem_dropWhile_iff (p : Char → Bool) (l : List Char) :
    (∀ x ∈ l.dropWhile p, p x = true) ↔ ∀ x ∈ l, p x = true := by
  induction l with
  | nil => simp
  | cons a t ih =>
    by_cases ha : p a = true
    · simp [List.dropWhile_cons, ha, ih]
    · simp [List.dropWhile_cons, ha]

theorem TrimSpace_eq_empty_iff (s : String) :
    TrimSpace s = "" ↔ ∀ c ∈ s.toList, isSpace c = true := by
  unfold TrimSpace
  rw [String.ext_iff]
  show ((s.toList.dropWhile isSpace).reverse.dropWhile isSpace).reverse = [] ↔ _
  rw [List.reverse_eq_nil_iff, List.dropWhile_eq_nil_iff]
  simp only [List.mem_reverse]
  exact forall_mem_dropWhile_iff isSpace s.toList

theorem TrimSpace_ne_empty_iff (s : String) :
    TrimSpace s ≠ "" ↔ ∃ c ∈ s.toList, isSpace c = false := by
  rw [Ne, TrimSpace_eq_empty_iff]
  simp

/-! ## Theorems on the API handlers -/

theorem runContainer_calls (env : Env) (image port : String) :
    (runContainer env image port).1 = [.execOutput (dockerRunArgv image port)] := by
  simp only [runContainer]
  split <;> rfl

/-- C1: when the body decodes, `runContainer` succeeds with handle `h` and the store
accepts the record, `serveCreateService` runs the docker command for the request's
type and port, hands the store the record with the request's type and port and
`ContainerID = h`, writes status 201, and writes that record (as the store left it
behind the pointer, with its assigned ID) as the JSON response. -/
theorem serveCreateService_created (env : Env) (r : Request) (decoded stored : Service)
    (h : String) (hbody : r.Body = .ok decoded)
    (hrun : (runContainer env decoded.Typ decoded.PortExposed).2 = (h, none))
    (hstore : env.servicesCreate ⟨decoded.ID, decoded.Typ, decoded.PortExposed, h⟩ = .ok stored) :
    serveCreateService env r =
      ⟨[.execOutput (dockerRunArgv decoded.Typ decoded.PortExposed),
        .servicesCreate ⟨decoded.ID, decoded.Typ, decoded.PortExposed, h⟩,
        .writeHeader 201, .writeJSON stored], env.writeJSON stored⟩ := by
  have hcalls := runContainer_calls env decoded.Typ decoded.PortExposed
  have h1 : (runContainer env decoded.Typ decoded.PortExposed).2.1 = h := by rw [hrun]
  have h2 : (runContainer env decoded.Typ decoded.PortExposed).2.2 = none := by rw [hrun]
  simp only [serveCreateService, hbody, h1, h2, hcalls, hstore]
  rfl

/-- The example of C1: type `ubuntu`, port `8080:80`, docker printing `abc123`. -/
theorem serveCreateService_created_witness :
    ubuntuRequest.Body = .ok ⟨0, "ubuntu", "8080:80", ""⟩ ∧
    (runContainer stubEnv "ubuntu" "8080:80").2 = ("abc123", none) ∧
    serveCreateService stubEnv ubuntuRequest =
      ⟨[.execOutput (dockerRunArgv "ubuntu" "8080:80"),
        .servicesCreate ⟨0, "ubuntu", "8080:80", "abc123"⟩,
        .writeHeader 201, .writeJSON ⟨1, "ubuntu", "8080:80", "abc123"⟩], none⟩ :=
  ⟨rfl, by decide,
    serveCreateService_created stubEnv ubuntuRequest ⟨0, "ubuntu", "8080:80", ""⟩
      ⟨1, "ubuntu", "8080:80", "abc123"⟩ "abc123" rfl (by decide) rfl⟩

/-- C2, as stated, fails: docker succeeds and prints only white space, and the
record handed to the store has an empty `ContainerID`. -/
theorem serveCreateService_blank_containerID :
    blankOutputEnv.execOutput (dockerRunArgv "ubuntu" "8080:80") = .ok " \n" ∧
    serveCreateService blankOutputEnv ubuntuRequest =
      ⟨[.execOutput (dockerRunArgv "ubuntu" "8080:80"),
        .servicesCreate ⟨0, "ubuntu", "8080:80", ""⟩,
        .writeHeader 201, .writeJSON ⟨1, "ubuntu", "8080:80", ""⟩], none⟩ ∧
    (⟨0, "ubuntu", "8080:80", ""⟩ : Service).ContainerID = "" :=
  ⟨rfl, by decide, rfl⟩

/-- C2, amended: every record `serveCreateService` hands to `store.Services.Create`
comes from a decoded body and a successful docker invocation, and carries as
`ContainerID` the trimmed standard output of that invocation; it is non-empty
exactly when the output has a character that is not white space. -/
theorem serveCreateService_stored_containerID (env : Env) (r : Request) (s : Service)
    (hs : Call.servicesCreate s ∈ (serveCreateService env r).calls) :
    ∃ decoded output, r.Body = .ok decoded ∧
      env.execOutput (dockerRunArgv decoded.Typ decoded.PortExposed) = .ok output ∧
      s = ⟨decoded.ID, decoded.Typ, decoded.PortExposed, TrimSpace output⟩ ∧
      (s.ContainerID ≠ "" ↔ ∃ c ∈ output.toList, isSpace c = false) := by
  unfold serveCreateService at hs
  cases hb : r.Body with
  | error e => simp [hb] at hs
  | ok decoded =>
    cases hx : env.execOutput (dockerRunArgv decoded.Typ decoded.PortExposed) with
    | error e => simp [hb, runContainer, hx] at hs
    | ok output =>
      have hrec : s = ⟨decoded.ID, decoded.Typ, decoded.PortExposed, TrimSpace output⟩ := by
        simp only [hb, runContainer, hx] at hs
        split at hs <;> simp at hs <;> exact hs
      refine ⟨decoded, output, rfl, hx, hrec, ?_⟩
      rw [hrec]
      exact TrimSpace_ne_empty_iff output

/-- An instance of the amended C2: the record stored for the `ubuntu` request. -/
theorem serveCreateService_stored_containerID_witness :
    Call.servicesCreate ⟨0, "ubuntu", "8080:80", "abc123"⟩ ∈
      (serveCreateService stubEnv ubuntuRequest).calls ∧
    ∃ decoded output, ubuntuRequest.Body = .ok decoded ∧
      stubEnv.execOutput (dockerRunArgv decoded.Typ decoded.PortExposed) = .ok output ∧
      (⟨0, "ubuntu", "8080:80", "abc123"⟩ : Service) =
        ⟨decoded.ID, decoded.Typ, decoded.PortExposed, TrimSpace output⟩ ∧
      ((⟨0, "ubuntu", "8080:80", "abc123"⟩ : Service).ContainerID ≠ "" ↔
        ∃ c ∈ output.toList, isSpace c = false) :=
  ⟨by decide,
    serveCreateService_stored_containerID stubEnv ubuntuRequest
      ⟨0, "ubuntu", "8080:80", "abc123"⟩ (by decide)⟩

/-- C3: when the body decodes and `runContainer` fails with `e`, the handler makes
no call but the docker command (no `store.Services.Create`, no 201, no body) and
returns `e`, the error of the docker command, unchanged; when the launch succeeds
with handle `h` and `store.Services.Create` fails with `e`, the handler returns `e`
and writes neither the 201 status nor a body. -/
theorem serveCreateService_atomic (env : Env) (r : Request) (decoded : Service)
    (hbody : r.Body = .ok decoded) :
    (∀ e, (runContainer env decoded.Typ decoded.PortExposed).2.2 = some e →
      env.execOutput (dockerRunArgv decoded.Typ decoded.PortExposed) = .error e ∧
      serveCreateService env r =
        ⟨[.execOutput (dockerRunArgv decoded.Typ decoded.PortExposed)], some e⟩) ∧
    (∀ h e, (runContainer env decoded.Typ decoded.PortExposed).2 = (h, none) →
      env.servicesCreate ⟨decoded.ID, decoded.Typ, decoded.PortExposed, h⟩ = .error e →
      serveCreateService env r =
        ⟨[.execOutput (dockerRunArgv decoded.Typ decoded.PortExposed),
          .servicesCreate ⟨decoded.ID, decoded.Typ, decoded.PortExposed, h⟩], some e⟩) := by
  have hcalls := runContainer_calls env decoded.Typ decoded.PortExposed
  constructor
  · intro e he
    refine ⟨?_, ?_⟩
    · cases hx : env.execOutput (dockerRunArgv decoded.Typ decoded.PortExposed) with
      | error e1 => simp [runContainer, hx] at he; rw [he]
      | ok output => simp [runContainer, hx] at he
    · simp only [serveCreateService, hbody, he, hcalls]
  · intro h e hrun hstore
    have h1 : (runContainer env decoded.Typ decoded.PortExposed).2.1 = h := by rw [hrun]
    have h2 : (runContainer env decoded.Typ decoded.PortExposed).2.2 = none := by rw [hrun]
    simp only [serveCreateService, hbody, h1, h2, hcalls, hstore]
    rfl

/-- Instances of C3: a docker command that fails, and a store that rejects the write. -/
theorem serveCreateService_atomic_witness :
    ubuntuRequest.Body = .ok ⟨0, "ubuntu", "8080:80", ""⟩ ∧
    (runContainer launchFailsEnv "ubuntu" "8080:80").2.2 = some (.other "exit status 125") ∧
    serveCreateService launchFailsEnv ubuntuRequest =
      ⟨[.execOutput (dockerRunArgv "ubuntu" "8080:80")], some (.other "exit status 125")⟩ ∧
    (runContainer storeFailsEnv "ubuntu" "8080:80").2 = ("abc123", none) ∧
    serveCreateService storeFailsEnv ubuntuRequest =
      ⟨[.execOutput (dockerRunArgv "ubuntu" "8080:80"),
        .servicesCreate ⟨0, "ubuntu", "8080:80", "abc123"⟩], some (.other "write rejected")⟩ :=
  ⟨rfl, rfl,
    ((serveCreateService_atomic launchFailsEnv ubuntuRequest ⟨0, "ubuntu", "8080:80", ""⟩ rfl).1
      (.other "exit status 125") rfl).2,
    by decide,
    (serveCreateService_atomic storeFailsEnv ubuntuRequest ⟨0, "ubuntu", "8080:80", ""⟩ rfl).2
      "abc123" (.other "write rejected") (by decide) rfl⟩

/-- C4, as stated, fails: for a request whose `type` is empty the handler invokes
`runContainer` with the empty image, and the error it returns is the one of the
docker command. -/
theorem serveCreateService_no_validation :
    untypedRequest.Body = .ok ⟨0, "", "8080:80", ""⟩ ∧
    serveCreateService launchFailsEnv untypedRequest =
      ⟨[.execOutput (dockerRunArgv "" "8080:80")], some (.other "exit status 125")⟩ :=
  ⟨rfl, by decide⟩

/-- C4, amended: `serveCreateService` does not inspect `type` or `portExposed`.  A
body that does not decode makes it fail with the decoder's error before any call
(no `runContainer`, no `store.Services.Create`).  A body that decodes always leads
to `runContainer` being invoked first, with the decoded type and port as they are,
and the handler then ends in one of three ways: the docker command failed, and its
error is returned after that single call; the store rejected the record, and its
error is returned with no 201 and no body; or the record was stored and 201
written, and what is returned is the result of `writeJSON`. -/
theorem serveCreateService_decode_only (env : Env) (r : Request) :
    (∀ e, r.Body = .error e → serveCreateService env r = ⟨[], some e⟩) ∧
    (∀ decoded, r.Body = .ok decoded →
      (∃ rest, (serveCreateService env r).calls =
        .execOutput (dockerRunArgv decoded.Typ decoded.PortExposed) :: rest) ∧
      ((∃ e, env.execOutput (dockerRunArgv decoded.Typ decoded.PortExposed) = .error e ∧
          serveCreateService env r =
            ⟨[.execOutput (dockerRunArgv decoded.Typ decoded.PortExposed)], some e⟩) ∨
       (∃ output e,
          env.execOutput (dockerRunArgv decoded.Typ decoded.PortExposed) = .ok output ∧
          env.servicesCreate
            ⟨decoded.ID, decoded.Typ, decoded.PortExposed, TrimSpace output⟩ = .error e ∧
          serveCreateService env r =
            ⟨[.execOutput (dockerRunArgv decoded.Typ decoded.PortExposed),
              .servicesCreate
                ⟨decoded.ID, decoded.Typ, decoded.PortExposed, TrimSpace output⟩],
              some e⟩) ∨
       (∃ output stored,
          env.execOutput (dockerRunArgv decoded.Typ decoded.PortExposed) = .ok output ∧
          env.servicesCreate
            ⟨decoded.ID, decoded.Typ, decoded.PortExposed, TrimSpace output⟩ = .ok stored ∧
          serveCreateService env r =
            ⟨[.execOutput (dockerRunArgv decoded.Typ decoded.PortExposed),
              .servicesCreate
                ⟨decoded.ID, decoded.Typ, decoded.PortExposed, TrimSpace output⟩,
              .writeHeader 201, .writeJSON stored], env.writeJSON stored⟩))) := by
  constructor
  · intro e he
    simp only [serveCreateService, he]
  · intro decoded hd
    cases hx : env.execOutput (dockerRunArgv decoded.Typ decoded.PortExposed) with
    | error e =>
      have hout : serveCreateService env r =
          ⟨[.execOutput (dockerRunArgv decoded.Typ decoded.PortExposed)], some e⟩ := by
        simp only [serveCreateService, hd, runContainer, hx]
      exact ⟨⟨[], by rw [hout]⟩, Or.inl ⟨e, rfl, hout⟩⟩
    | ok output =>
      cases hc : env.servicesCreate
          ⟨decoded.ID, decoded.Typ, decoded.PortExposed, TrimSpace output⟩ with
      | error e =>
        have hout : serveCreateService env r =
            ⟨[.execOutput (dockerRunArgv decoded.Typ decoded.PortExposed),
              .servicesCreate
                ⟨decoded.ID, decoded.Typ, decoded.PortExposed, TrimSpace output⟩],
              some e⟩ := by
          simp only [serveCreateService, hd, runContainer, hx, hc]
          rfl
        exact ⟨⟨_, by rw [hout]⟩, Or.inr (Or.inl ⟨output, e, rfl, hc, hout⟩)⟩
      | ok stored =>
        have hout : serveCreateService env r =
            ⟨[.execOutput (dockerRunArgv decoded.Typ decoded.PortExposed),
              .servicesCreate
                ⟨decoded.ID, decoded.Typ, decoded.PortExposed, TrimSpace output⟩,
              .writeHeader 201, .writeJSON stored], env.writeJSON stored⟩ := by
          simp only [serveCreateService, hd, runContainer, hx, hc]
          rfl
        exact ⟨⟨_, by rw [hout]⟩, Or.inr (Or.inr ⟨output, stored, rfl, hc, hout⟩)⟩

/-- Instances of the amended C4: an undecodable body, and a body with an empty type
whose docker command fails. -/
theorem serveCreateService_decode_only_witness :
    serveCreateService stubEnv undecodableRequest = ⟨[], some (.other "unexpected EOF")⟩ ∧
    (∃ rest, (serveCreateService launchFailsEnv untypedRequest).calls =
      .execOutput (dockerRunArgv "" "8080:80") :: rest) ∧
    ((∃ e, launchFailsEnv.execOutput (dockerRunArgv "" "8080:80") = .error e ∧
        serveCreateService launchFailsEnv untypedRequest =
          ⟨[.execOutput (dockerRunArgv "" "8080:80")], some e⟩) ∨
     (∃ output e,
        launchFailsEnv.execOutput (dockerRunArgv "" "8080:80") = .ok output ∧
        launchFailsEnv.servicesCreate ⟨0, "", "8080:80", TrimSpace output⟩ = .error e ∧
        serveCreateService launchFailsEnv untypedRequest =
          ⟨[.execOutput (dockerRunArgv "" "8080:80"),
            .servicesCreate ⟨0, "", "8080:80", TrimSpace output⟩], some e⟩) ∨
     (∃ output stored,
        launchFailsEnv.execOutput (dockerRunArgv "" "8080:80") = .ok output ∧
        launchFailsEnv.servicesCreate ⟨0, "", "8080:80", TrimSpace output⟩ = .ok stored ∧
        serveCreateService launchFailsEnv untypedRequest =
          ⟨[.execOutput (dockerRunArgv "" "8080:80"),
            .servicesCreate ⟨0, "", "8080:80", TrimSpace output⟩,
            .writeHeader 201, .writeJSON stored], launchFailsEnv.writeJSON stored⟩)) :=
  ⟨(serveCreateService_decode_only stubEnv undecodableRequest).1 (.other "unexpected EOF") rfl,
    (serveCreateService_decode_only launchFailsEnv untypedRequest).2 ⟨0, "", "8080:80", ""⟩ rfl⟩

/-- C5, as stated, fails: for the ID string `abc`, which names no record, the error
returned is the `strconv` parse error, not the not-found kind. -/
theorem serveService_non_integer_id :
    serveService stubEnv (getRequest "abc") =
      ⟨[], some (.numError "Atoi" "abc" .invalid)⟩ ∧
    Error.numError "Atoi" "abc" .invalid ≠ Error.notFound :=
  ⟨by decide, by decide⟩

/-- C5, amended: when the ID string parses as an integer `id` and
`store.Services.Get(id)` fails with `e` (not-found, for an ID that names no record),
`serveService` writes no body and returns `e` unchanged; when the ID string does
not parse, it returns the parse error, which is never the not-found kind, without
consulting the store. -/
theorem serveService_get_error (env : Env) (r : Request) :
    (∀ id e, Atoi r.VarID = .ok id → env.servicesGet id = .error e →
      serveService env r = ⟨[.servicesGet id], some e⟩) ∧
    (∀ e, Atoi r.VarID = .error e →
      serveService env r = ⟨[], some e⟩ ∧ e ≠ Error.notFound) := by
  constructor
  · intro id e hid hget
    simp only [serveService, hid, hget]
  · intro e he
    refine ⟨by simp only [serveService, he], ?_⟩
    unfold Atoi at he
    split at he
    · cases he
    · cases he
      simp

/-- Instances of the amended C5: ID `7` in an empty store, and the ID string `abc`. -/
theorem serveService_get_error_witness :
    Atoi "7" = .ok 7 ∧ stubEnv.servicesGet 7 = .error .notFound ∧
    serveService stubEnv (getRequest "7") = ⟨[.servicesGet 7], some .notFound⟩ ∧
    Atoi "abc" = .error (.numError "Atoi" "abc" .invalid) ∧
    serveService stubEnv (getRequest "abc") = ⟨[], some (.numError "Atoi" "abc" .invalid)⟩ :=
  ⟨rfl, rfl,
    (serveService_get_error stubEnv (getRequest "7")).1 7 .notFound rfl rfl,
    rfl,
    ((serveService_get_error stubEnv (getRequest "abc")).2
      (.numError "Atoi" "abc" .invalid) rfl).1⟩

/-! ## Theorems on the daemon -/

theorem daemonLoop_append {σ : Type} (run : Runner σ) (pre post : List Signal) (d : Daemon σ)
    (h : (daemonLoop run d pre).exited = none) :
    daemonLoop run d (pre ++ post) = daemonLoop run (daemonLoop run d pre) post := by
  induction pre generalizing d with
  | nil => rfl
  | cons s rest ih =>
    simp only [List.cons_append, daemonLoop] at h ⊢
    cases hx : (daemonStep run d s).exited with
    | some c => simp [hx] at h
    | none =>
      simp only [hx] at h ⊢
      exact ih _ h

theorem daemonLoop_errors {σ : Type} (run : Runner σ) (errs : List Error) (d : Daemon σ)
    (hd : d.exited = none) :
    daemonLoop run d (errs.map .error) = { d with log := d.log ++ errs.map .println } := by
  induction errs generalizing d with
  | nil => simp [daemonLoop]
  | cons e rest ih =>
    simp only [List.map_cons, daemonLoop, daemonStep, hd]
    rw [ih _ rfl]
    simp

theorem commitAndPushEverything_ok {σ : Type} (run : Runner σ)
    (hrun : ∀ w argv, (run w argv).1 = none) (w : σ) :
    (commitAndPushEverything run w).cmds = [gitAdd, gitCommit, gitPush] ∧
    (commitAndPushEverything run w).err = none := by
  unfold commitAndPushEverything
  split
  · next e w1 h => have := hrun w gitAdd; simp [h] at this
  · next w1 h1 =>
    split
    · next e w2 h => have := hrun w1 gitCommit; simp [h] at this
    · next w2 h2 =>
      split
      · next e w3 h => have := hrun w2 gitPush; simp [h] at this
      · exact ⟨rfl, rfl⟩

/-- C6: `commitAndPushEverything` runs `git add -A :/`, then the commit, then
`git push`, each at most once and each only when the earlier ones succeeded: if the
add fails only the add was run, if the commit fails only the add and the commit
were run, otherwise all three were run, in that order.  The error returned is the
one of the first failing step, and it is `nil` exactly when the three steps
succeeded.  When only the push fails, a write event delivered to the daemon loop
runs the add and the commit once each, then the push, and the process exits with
status 1.  More generally, at any iteration of the daemon loop (after any signals
that left it running), a write-class event whose cycle returns an error, whichever
step failed, adds exactly the commands of that cycle to the trace, logs the fatal
line and ends the process with status 1; the signals that follow are not handled. -/
theorem commitAndPushEverything_sequence {σ : Type} (run : Runner σ) (w : σ) :
    (∀ e, (run w gitAdd).1 = some e →
      (commitAndPushEverything run w).cmds = [gitAdd] ∧
      (commitAndPushEverything run w).err = some e) ∧
    ((run w gitAdd).1 = none → ∀ e, (run (run w gitAdd).2 gitCommit).1 = some e →
      (commitAndPushEverything run w).cmds = [gitAdd, gitCommit] ∧
      (commitAndPushEverything run w).err = some e) ∧
    ((run w gitAdd).1 = none → (run (run w gitAdd).2 gitCommit).1 = none →
      (commitAndPushEverything run w).cmds = [gitAdd, gitCommit, gitPush] ∧
      (commitAndPushEverything run w).err =
        (run (run (run w gitAdd).2 gitCommit).2 gitPush).1) ∧
    ((commitAndPushEverything run w).err = none ↔
      (run w gitAdd).1 = none ∧ (run (run w gitAdd).2 gitCommit).1 = none ∧
        (run (run (run w gitAdd).2 gitCommit).2 gitPush).1 = none) ∧
    ((run w gitAdd).1 = none → (run (run w gitAdd).2 gitCommit).1 = none →
      ∀ e, (run (run (run w gitAdd).2 gitCommit).2 gitPush).1 = some e →
      ∀ ev rest, ev.Op &&& Write = Write →
        (daemonLoop run (Daemon.start w) (.event ev :: rest)).cmds =
          [gitAdd, gitCommit, gitPush] ∧
        (daemonLoop run (Daemon.start w) (.event ev :: rest)).exited = some 1 ∧
        (daemonLoop run (Daemon.start w) (.event ev :: rest)).log =
          [.fatal "error committing changes"]) ∧
    (∀ e, (commitAndPushEverything run w).err = some e →
      ∀ (d : Daemon σ) (pre : List Signal) (ev : Event) (rest : List Signal),
        (daemonLoop run d pre).exited = none → (daemonLoop run d pre).world = w →
        ev.Op &&& Write = Write →
        (daemonStep run (daemonLoop run d pre) (.event ev)).exited = some 1 ∧
        (daemonLoop run d (pre ++ .event ev :: rest)).exited = some 1 ∧
        (daemonLoop run d (pre ++ .event ev :: rest)).cmds =
          (daemonLoop run d pre).cmds ++ (commitAndPushEverything run w).cmds ∧
        (daemonLoop run d (pre ++ .event ev :: rest)).log =
          (daemonLoop run d pre).log ++ [.fatal "error committing changes"]) := by
  have hgen : ∀ e, (commitAndPushEverything run w).err = some e →
      ∀ (d : Daemon σ) (pre : List Signal) (ev : Event) (rest : List Signal),
        (daemonLoop run d pre).exited = none → (daemonLoop run d pre).world = w →
        ev.Op &&& Write = Write →
        (daemonStep run (daemonLoop run d pre) (.event ev)).exited = some 1 ∧
        (daemonLoop run d (pre ++ .event ev :: rest)).exited = some 1 ∧
        (daemonLoop run d (pre ++ .event ev :: rest)).cmds =
          (daemonLoop run d pre).cmds ++ (commitAndPushEverything run w).cmds ∧
        (daemonLoop run d (pre ++ .event ev :: rest)).log =
          (daemonLoop run d pre).log ++ [.fatal "error committing changes"] := by
    intro e herr d pre ev rest halive hworld hev
    have hstep : daemonStep run (daemonLoop run d pre) (.event ev) =
        ⟨(commitAndPushEverything run w).world,
          (daemonLoop run d pre).cmds ++ (commitAndPushEverything run w).cmds,
          (daemonLoop run d pre).log ++ [.fatal "error committing changes"], some 1⟩ := by
      simp only [daemonStep, hev, if_true, hworld, herr]
    have hloop : daemonLoop run d (pre ++ .event ev :: rest) =
        daemonStep run (daemonLoop run d pre) (.event ev) := by
      rw [daemonLoop_append run pre _ d halive]
      simp only [daemonLoop, hstep]
    rw [hloop, hstep]
    exact ⟨rfl, rfl, rfl, rfl⟩
  refine ⟨?_, ?_, ?_, ?_, ?_, hgen⟩
  all_goals
    rcases ha : run w gitAdd with ⟨a, w1⟩
    rcases hc : run w1 gitCommit with ⟨c, w2⟩
    rcases hp : run w2 gitPush with ⟨p, w3⟩
    cases a <;> cases c <;> cases p <;>
      simp [commitAndPushEverything, ha, hc, hp, daemonLoop, daemonStep, Daemon.start]
  all_goals
    intro ev _ hev
    simp [hev, commitAndPushEverything, ha, hc, hp]

/-- Instances of C6: the push fails at the first write event; the add fails at a
write event that follows a watcher error; the push fails at the second write event. -/
theorem commitAndPushEverything_sequence_witness :
    (scriptedRun [none, none, some (.other "exit status 1")] gitAdd).1 = none ∧
    (commitAndPushEverything scriptedRun [none, none, some (.other "exit status 1")]).cmds =
      [gitAdd, gitCommit, gitPush] ∧
    (commitAndPushEverything scriptedRun [none, none, some (.other "exit status 1")]).err =
      some (.other "exit status 1") ∧
    ((daemonLoop scriptedRun (Daemon.start [none, none, some (.other "exit status 1")])
      [.event writeEvent]).cmds = [gitAdd, gitCommit, gitPush] ∧
     (daemonLoop scriptedRun (Daemon.start [none, none, some (.other "exit status 1")])
      [.event writeEvent]).exited = some 1 ∧
     (daemonLoop scriptedRun (Daemon.start [none, none, some (.other "exit status 1")])
      [.event writeEvent]).log = [.fatal "error committing changes"]) ∧
    (daemonLoop scriptedRun (Daemon.start [some (.other "exit status 128")])
      ([.error (.other "queue overflow")] ++ .event writeEvent :: [.event writeEvent])).exited =
        some 1 ∧
    (daemonLoop scriptedRun
      (Daemon.start [none, none, none, none, none, some (.other "exit status 1")])
      ([.event writeEvent] ++ .event writeEvent :: [])).exited = some 1 :=
  ⟨rfl,
    ((commitAndPushEverything_sequence scriptedRun
      [none, none, some (.other "exit status 1")]).2.2.1 rfl rfl).1,
    ((commitAndPushEverything_sequence scriptedRun
      [none, none, some (.other "exit status 1")]).2.2.1 rfl rfl).2,
    (commitAndPushEverything_sequence scriptedRun
      [none, none, some (.other "exit status 1")]).2.2.2.2.1 rfl rfl
      (.other "exit status 1") rfl writeEvent [] (by decide),
    ((commitAndPushEverything_sequence scriptedRun
      [some (.other "exit status 128")]).2.2.2.2.2 (.other "exit status 128") rfl
      (Daemon.start [some (.other "exit status 128")]) [.error (.other "queue overflow")]
      writeEvent [.event writeEvent] rfl rfl (by decide)).2.1,
    ((commitAndPushEverything_sequence scriptedRun
      [none, none, some (.other "exit status 1")]).2.2.2.2.2 (.other "exit status 1") rfl
      (Daemon.start [none, none, none, none, none, some (.other "exit status 1")])
      [.event writeEvent] writeEvent [] rfl rfl (by decide)).2.1⟩

/-- C7: when every git command succeeds, the daemon loop run on a sequence of `N`
write-class events issues exactly the commands add, commit, push repeated `N`
times, in that order (each push before the next add), logs nothing, and is still
running afterwards. -/
theorem daemonLoop_burst {σ : Type} (run : Runner σ)
    (hrun : ∀ w argv, (run w argv).1 = none) (N : Nat) (es : List Event)
    (hN : es.length = N) (hes : ∀ e ∈ es, e.Op &&& Write = Write) (d : Daemon σ)
    (hd : d.exited = none) :
    (daemonLoop run d (es.map .event)).cmds =
      d.cmds ++ (List.replicate N [gitAdd, gitCommit, gitPush]).flatten ∧
    (daemonLoop run d (es.map .event)).exited = none ∧
    (daemonLoop run d (es.map .event)).log = d.log := by
  subst hN
  induction es generalizing d with
  | nil => simp [daemonLoop, hd]
  | cons e rest ih =>
    have he : e.Op &&& Write = Write := hes e (List.mem_cons_self _ _)
    have hrest : ∀ x ∈ rest, x.Op &&& Write = Write :=
      fun x hx => hes x (List.mem_cons_of_mem _ hx)
    obtain ⟨hcmds, herr⟩ := commitAndPushEverything_ok run hrun d.world
    have hstep : daemonStep run d (.event e) =
        { d with world := (commitAndPushEverything run d.world).world,
                 cmds := d.cmds ++ [gitAdd, gitCommit, gitPush] } := by
      simp only [daemonStep, he, if_true, herr, hcmds]
    simp only [List.map_cons, daemonLoop, hstep, hd, List.length_cons, List.replicate_succ,
      List.flatten_cons]
    obtain ⟨h1, h2, h3⟩ := ih hrest
      ⟨(commitAndPushEverything run d.world).world, d.cmds ++ [gitAdd, gitCommit, gitPush],
        d.log, none⟩ rfl
    refine ⟨?_, h2, h3⟩
    rw [h1]
    simp

/-- An instance of C7: two write events, every command succeeding. -/
theorem daemonLoop_burst_witness :
    (∀ w argv, (countingRun w argv).1 = none) ∧
    (daemonLoop countingRun (Daemon.start 0) ([writeEvent, writeEvent].map .event)).cmds =
      [gitAdd, gitCommit, gitPush, gitAdd, gitCommit, gitPush] ∧
    (daemonLoop countingRun (Daemon.start 0) ([writeEvent, writeEvent].map .event)).exited =
      none ∧
    (daemonLoop countingRun (Daemon.start 0) ([writeEvent, writeEvent].map .event)).log = [] :=
  ⟨fun _ _ => rfl,
    daemonLoop_burst countingRun (fun _ _ => rfl) 2 [writeEvent, writeEvent] rfl
      (by decide) (Daemon.start 0) rfl⟩

/-- C8: an event delivered to the daemon loop starts a sync cycle, beginning with
`git add`, exactly when the `Write` bit is set in its mask.  An event without the
bit leaves the daemon as it was: no git command, no log line, no exit.  That is
the case of every mask made of `Create`, `Remove`, `Rename` and `Chmod`, the zero
mask included. -/
theorem daemonStep_write_only {σ : Type} (run : Runner σ) (d : Daemon σ) (e : Event) :
    (e.Op &&& Write = Write →
      ∃ rest, (daemonStep run d (.event e)).cmds = d.cmds ++ gitAdd :: rest) ∧
    (e.Op &&& Write ≠ Write → daemonStep run d (.event e) = d) ∧
    ((daemonStep run d (.event e)).cmds ≠ d.cmds ↔ e.Op &&& Write = Write) ∧
    (∀ a b c f : Bool,
      e.Op = (if a then Create else 0) ||| (if b then Remove else 0) |||
        (if c then Rename else 0) ||| (if f then Chmod else 0) →
      daemonStep run d (.event e) = d ∧ daemonLoop run d [.event e] = d) := by
  have hcycle : ∃ rest, (commitAndPushEverything run d.world).cmds = gitAdd :: rest := by
    unfold commitAndPushEverything
    split
    · exact ⟨_, rfl⟩
    · split
      · exact ⟨_, rfl⟩
      · split <;> exact ⟨_, rfl⟩
  have hyes : e.Op &&& Write = Write →
      ∃ rest, (daemonStep run d (.event e)).cmds = d.cmds ++ gitAdd :: rest := by
    intro he
    obtain ⟨rest, hrest⟩ := hcycle
    refine ⟨rest, ?_⟩
    simp only [daemonStep, he, if_true]
    split <;> simp [hrest]
  have hno : e.Op &&& Write ≠ Write → daemonStep run d (.event e) = d := by
    intro he
    simp only [daemonStep, he, if_false]
  refine ⟨hyes, hno, ?_, ?_⟩
  · constructor
    · intro hne
      by_contra he
      exact hne (by rw [hno he])
    · intro he
      obtain ⟨rest, hrest⟩ := hyes he
      rw [hrest]
      simp
  · intro a b c f hop
    have he : e.Op &&& Write ≠ Write := by
      rw [hop]
      cases a <;> cases b <;> cases c <;> cases f <;> decide
    have hstep := hno he
    refine ⟨hstep, ?_⟩
    simp only [daemonLoop, hstep]
    split <;> rfl

/-- Instances of C8: a write event starts a cycle, a `Create|Chmod` event does not. -/
theorem daemonStep_write_only_witness :
    (∃ rest, (daemonStep countingRun (Daemon.start 0) (.event writeEvent)).cmds =
      (Daemon.start 0).cmds ++ gitAdd :: rest) ∧
    (daemonStep countingRun (Daemon.start 0) (.event ⟨"main.go", Create ||| Chmod⟩) =
      Daemon.start 0 ∧
     daemonLoop countingRun (Daemon.start 0) [.event ⟨"main.go", Create ||| Chmod⟩] =
      Daemon.start 0) :=
  ⟨(daemonStep_write_only countingRun (Daemon.start 0) writeEvent).1 (by decide),
    (daemonStep_write_only countingRun (Daemon.start 0) ⟨"main.go", Create ||| Chmod⟩).2.2.2
      true false false true (by decide)⟩

/-- C9: a watcher error only adds a log line: it runs no git command and does not
end the loop.  After any number of watcher errors the loop is still running with
the same world, and a write-class event delivered next triggers its sync cycle.
Whatever the signals delivered, the loop ends only at a write-class event whose
sync cycle returned an error. -/
theorem daemonLoop_watcher_errors {σ : Type} (run : Runner σ) (d : Daemon σ)
    (hd : d.exited = none) :
    (∀ err, daemonStep run d (.error err) = { d with log := d.log ++ [.println err] }) ∧
    (∀ errs : List Error,
      daemonLoop run d (errs.map .error) = { d with log := d.log ++ errs.map .println }) ∧
    (∀ (errs : List Error) (e : Event), e.Op &&& Write = Write →
      (daemonLoop run d (errs.map .error ++ [.event e])).cmds =
        d.cmds ++ (commitAndPushEverything run d.world).cmds) ∧
    (∀ sigs : List Signal, (daemonLoop run d sigs).exited ≠ none →
      ∃ pre ev post, sigs = pre ++ .event ev :: post ∧
        ev.Op &&& Write = Write ∧
        (daemonLoop run d pre).exited = none ∧
        (commitAndPushEverything run (daemonLoop run d pre).world).err ≠ none) := by
  refine ⟨fun err => rfl, fun errs => daemonLoop_errors run errs d hd, ?_, ?_⟩
  · intro errs e he
    have halive : (daemonLoop run d (errs.map .error)).exited = none := by
      rw [daemonLoop_errors run errs d hd]; exact hd
    rw [daemonLoop_append run _ _ d halive, daemonLoop_errors run errs d hd]
    simp only [daemonLoop, daemonStep, he, if_true]
    split <;> split <;> simp_all
  · intro sigs
    induction sigs generalizing d with
    | nil => intro h; exact absurd hd h
    | cons s rest ih =>
      intro h
      cases hx : (daemonStep run d s).exited with
      | some code =>
        cases s with
        | error err => simp [daemonStep, hd] at hx
        | event ev =>
          refine ⟨[], ev, rest, rfl, ?_, hd, ?_⟩
          · by_contra hne
            simp [daemonStep, hne, hd] at hx
          · intro hnone
            by_cases hw : ev.Op &&& Write = Write
            · simp only [daemonLoop] at hnone
              simp [daemonStep, hw, hnone, hd] at hx
            · simp [daemonStep, hw, hd] at hx
      | none =>
        have hloop : daemonLoop run d (s :: rest) = daemonLoop run (daemonStep run d s) rest := by
          simp only [daemonLoop, hx]
        rw [hloop] at h
        obtain ⟨pre, ev, post, hsplit, hw, halive, hfail⟩ := ih (daemonStep run d s) hx h
        refine ⟨s :: pre, ev, post, by rw [hsplit]; rfl, hw, ?_, ?_⟩
        · simp only [daemonLoop, hx]; exact halive
        · simp only [daemonLoop, hx]; exact hfail

/-- An instance of C9: two watcher errors, then a write event whose cycle runs. -/
theorem daemonLoop_watcher_errors_witness :
    (Daemon.start (0 : Nat)).exited = none ∧
    daemonLoop countingRun (Daemon.start 0)
        ([Error.other "too many open files", Error.other "queue overflow"].map .error) =
      { Daemon.start 0 with
        log := (Daemon.start (0 : Nat)).log ++
          [Error.other "too many open files", Error.other "queue overflow"].map .println } ∧
    (daemonLoop countingRun (Daemon.start 0)
        ([Error.other "too many open files", Error.other "queue overflow"].map .error ++
          [.event writeEvent])).cmds =
      (Daemon.start (0 : Nat)).cmds ++
        (commitAndPushEverything countingRun (Daemon.start (0 : Nat)).world).cmds :=
  ⟨rfl,
    (daemonLoop_watcher_errors countingRun (Daemon.start 0) rfl).2.1
      [Error.other "too many open files", Error.other "queue overflow"],
    (daemonLoop_watcher_errors countingRun (Daemon.start 0) rfl).2.2.1
      [Error.other "too many open files", Error.other "queue overflow"] writeEvent
      (by decide)⟩

/-! ## Theorems on project creation -/

/-- C10: with exactly one positional argument `name`, `createProjectCmd` first calls
the remote; if that fails it runs no clone, prints no success line and exits with
status 1; if it succeeds it runs `git clone <cloneURL> name`, and then either the
clone fails, and the command prints no success line and exits with status 1, or
it succeeds, and the command prints `<name> created successfully` and returns.
The success line is printed exactly when both the remote creation and the clone
succeeded.  With another number of positional arguments, or arguments that do not
parse, the command exits with status 1 without calling the remote or cloning. -/
theorem createProjectCmd_whole (env : CliEnv) (args : List String) :
    (∀ name, flagParse args = .ok [name] →
      (∀ e, env.projectsCreate ⟨0, ""⟩ = .error e →
        createProjectCmd env args = ⟨[.projectsCreate ⟨0, ""⟩], [], [.fatal e], some 1⟩) ∧
      (∀ p, env.projectsCreate ⟨0, ""⟩ = .ok p →
        (∀ e, env.execRun ["git", "clone", env.cloneURL p.GitPath, name] = some e →
          createProjectCmd env args =
            ⟨[.projectsCreate ⟨0, ""⟩,
              .execRun ["git", "clone", env.cloneURL p.GitPath, name]],
              [], [.fatal e], some 1⟩) ∧
        (env.execRun ["git", "clone", env.cloneURL p.GitPath, name] = none →
          createProjectCmd env args =
            ⟨[.projectsCreate ⟨0, ""⟩,
              .execRun ["git", "clone", env.cloneURL p.GitPath, name]],
              [name ++ " created successfully\n"], [], none⟩)) ∧
      ((name ++ " created successfully\n") ∈ (createProjectCmd env args).stdout ↔
        ∃ p, env.projectsCreate ⟨0, ""⟩ = .ok p ∧
          env.execRun ["git", "clone", env.cloneURL p.GitPath, name] = none)) ∧
    (∀ positional, flagParse args = .ok positional → positional.length ≠ 1 →
      createProjectCmd env args = ⟨[], [], [.line createProjectUsage], some 1⟩) ∧
    (∀ diags, flagParse args = .error diags →
      createProjectCmd env args = ⟨[], [], diags ++ [.line createProjectUsage], some 1⟩) := by
  refine ⟨?_, ?_, ?_⟩
  · intro name hparse
    refine ⟨?_, ?_, ?_⟩
    · intro e he
      simp [createProjectCmd, hparse, he]
    · intro p hp
      constructor
      · intro e he
        simp [createProjectCmd, hparse, hp, he]
      · intro he
        simp [createProjectCmd, hparse, hp, he]
    · cases hp : env.projectsCreate ⟨0, ""⟩ with
      | error e => simp [createProjectCmd, hparse, hp]
      | ok p =>
        cases he : env.execRun ["git", "clone", env.cloneURL p.GitPath, name] with
        | some e => simp [createProjectCmd, hparse, hp, he]
        | none => simp [createProjectCmd, hparse, hp, he]
  · intro positional hparse hlen
    simp [createProjectCmd, hparse, hlen]
  · intro diags hparse
    simp [createProjectCmd, hparse]

/-- Instances of C10: success, a remote failure, a clone failure, no argument, two
arguments. -/
theorem createProjectCmd_whole_witness :
    flagParse ["myproject"] = .ok ["myproject"] ∧
    createProjectCmd cliStub ["myproject"] =
      ⟨[.projectsCreate ⟨0, ""⟩,
        .execRun ["git", "clone", "http://mew.hackedu.us:4000/git/1.git", "myproject"]],
        ["myproject created successfully\n"], [], none⟩ ∧
    createProjectCmd remoteFailsCli ["myproject"] =
      ⟨[.projectsCreate ⟨0, ""⟩], [], [.fatal (.other "500 Internal Server Error")], some 1⟩ ∧
    createProjectCmd cloneFailsCli ["myproject"] =
      ⟨[.projectsCreate ⟨0, ""⟩,
        .execRun ["git", "clone", "http://mew.hackedu.us:4000/git/1.git", "myproject"]],
        [], [.fatal (.other "exit status 128")], some 1⟩ ∧
    createProjectCmd cliStub [] = ⟨[], [], [.line createProjectUsage], some 1⟩ ∧
    createProjectCmd cliStub ["a", "b"] = ⟨[], [], [.line createProjectUsage], some 1⟩ :=
  ⟨rfl,
    ((createProjectCmd_whole cliStub ["myproject"]).1 "myproject" rfl).2.1
      ⟨1, "1.git"⟩ rfl |>.2 rfl,
    ((createProjectCmd_whole remoteFailsCli ["myproject"]).1 "myproject" rfl).1
      (.other "500 Internal Server Error") rfl,
    ((createProjectCmd_whole cloneFailsCli ["myproject"]).1 "myproject" rfl).2.1
      ⟨1, "1.git"⟩ rfl |>.1 (.other "exit status 128") rfl,
    (createProjectCmd_whole cliStub []).2.1 [] rfl (by decide),
    (createProjectCmd_whole cliStub ["a", "b"]).2.1 ["a", "b"] rfl (by decide)⟩

end Orbit
